import Mathlib

/-!
Shallow embedding of the sms-automation service (TypeScript) together with
proofs about its retry queue, ingress media validation, side-effect sinks and
post-send verification.  Each definition mirrors one function of the source
repository; stateful control flow is embedded as an explicit event trace.
-/

namespace SmsSpec

/-- Message status enum from src/types/index.ts. -/
inductive MessageStatus
  | pending
  | sending
  | sent
  | failed
  | retrying
deriving DecidableEq

/-- Media attachment payload from src/types (filename, mimeType, base64 data). -/
structure MediaFile where
  filename : String
  mimeType : String
  data : String
deriving DecidableEq

/-- Webhook payload from src/types/index.ts; the media field is the attachment
list used by QueueService.processMessage and the ingress validator (an absent
media field is embedded as the empty list). -/
structure WebhookPayload where
  phone : String
  text : String
  external_id : Option String
  media : List MediaFile
deriving DecidableEq

/-- MessageResult from src/types/index.ts, as produced by
OpenPhoneService.sendMessage and consumed by the queue retry loop. -/
structure MessageResult where
  success : Bool
  status : MessageStatus
  error : Option String
  errorCode : Option String
  durationMs : Option Nat
deriving DecidableEq

/-- Outcome of one call to OpenPhoneService.sendMessage as seen by the queue
loop: either a returned MessageResult or an exception escaping the call. -/
inductive AttemptOutcome
  | result (r : MessageResult)
  | exception (msg : String)
deriving DecidableEq

/-- The queue sub-configuration from src/config/index.ts. -/
structure QueueConfig where
  minDelay : Nat
  maxDelay : Nat
  maxRetries : Nat
deriving DecidableEq

/-- List of retryable error markers from isRetryableError in src/utils/helpers.ts. -/
def retryableMessages : List String :=
  ["timeout", "network", "ECONNRESET", "ETIMEDOUT", "ENOTFOUND",
   "Target closed", "Navigation timeout"]

/-- Whether the character list hay starts with the character list needle. -/
def startsWithSeq : List Char → List Char → Bool
  | _, [] => true
  | [], _ :: _ => false
  | h :: t, n :: ns => h == n && startsWithSeq t ns

/-- Whether needle occurs contiguously inside hay. -/
def containsSeq (needle : List Char) : List Char → Bool
  | [] => startsWithSeq [] needle
  | h :: t => startsWithSeq (h :: t) needle || containsSeq needle t

/-- JavaScript String.prototype.includes on the underlying character lists. -/
def strIncludes (hay needle : String) : Bool :=
  containsSeq needle.data hay.data

/-- String.prototype.toLowerCase, embedded as a map over the character list
(extensionally Lean String.toLower on the ASCII range). -/
def strToLower (s : String) : String := String.mk (s.data.map Char.toLower)

/-- isRetryableError from src/utils/helpers.ts: the lowercased message contains
one of the lowercased retryable markers.  The queue calls it with
message = result.errorCode. -/
def isRetryableError (message : String) : Bool :=
  retryableMessages.any fun m => strIncludes (strToLower message) (strToLower m)

/-- JavaScript truthiness of the optional errorCode string used in the guard
of the retry branch (undefined and the empty string are falsy). -/
def errorCodeTruthy : Option String → Bool
  | some c => !(c == "")
  | none => false

/-- Exponential backoff delay of the retry branch in processMessage:
Math.min(1000 * Math.pow(2, attempt), 30000). -/
def retryDelayMs (attempt : Nat) : Nat :=
  min (1000 * 2 ^ attempt) 30000

/-- The complete guard of the retry branch in QueueService.processMessage:
attempt below maxRetries, truthy errorCode, and retryable classification. -/
def retryGuard (cfg : QueueConfig) (r : MessageResult) (attempt : Nat) : Bool :=
  decide (attempt < cfg.maxRetries) && errorCodeTruthy r.errorCode
    && isRetryableError (r.errorCode.getD "")

/-- Environment of an HTTP fetch call performed by the notifier: the ok flag,
status code and body text of the response. -/
structure FetchResponse where
  ok : Bool
  status : Nat
  body : String
deriving DecidableEq

/-- Outcome of the Supabase insert performed by SupabaseService.logMessage:
the call itself may reject, otherwise it yields an optional error field. -/
abbrev InsertOutcome := Except String (Option String)

namespace SupabaseService

/-- The try block of SupabaseService.logMessage: a rejected insert propagates,
and a returned error field is thrown as well. -/
def logMessageTry (insertOutcome : InsertOutcome) : Except String Unit :=
  match insertOutcome with
  | .error e => .error e
  | .ok (some err) => .error err
  | .ok none => .ok ()

/-- SupabaseService.logMessage: the surrounding catch logs the error and does
not rethrow, so the caller always sees a normal return. -/
def logMessage (insertOutcome : InsertOutcome) : Except String Unit :=
  match logMessageTry insertOutcome with
  | .error _ => .ok ()
  | .ok _ => .ok ()

/-- The try block of SupabaseService.uploadScreenshot: a missing file returns
undefined, a failed read propagates, a storage error field returns undefined,
otherwise the public URL is returned. -/
def uploadScreenshotTry (fileExists : Bool) (readResult : Except String Unit)
    (uploadError : Option String) (publicUrl : String) :
    Except String (Option String) :=
  if !fileExists then .ok none
  else
    match readResult with
    | .error e => .error e
    | .ok _ =>
      match uploadError with
      | some _ => .ok none
      | none => .ok (some publicUrl)

/-- SupabaseService.uploadScreenshot: the surrounding catch logs the error and
returns undefined, so the caller always sees a normal return. -/
def uploadScreenshot (fileExists : Bool) (readResult : Except String Unit)
    (uploadError : Option String) (publicUrl : String) :
    Except String (Option String) :=
  match uploadScreenshotTry fileExists readResult uploadError publicUrl with
  | .error _ => .ok none
  | .ok v => .ok v

end SupabaseService

namespace N8nWebhookService

/-- The try block of N8nWebhookService.sendCallback: a rejected fetch
propagates and a non-ok response is thrown as an error. -/
def sendCallbackTry (fetchOutcome : Except String FetchResponse) :
    Except String Unit :=
  match fetchOutcome with
  | .error e => .error e
  | .ok resp =>
    if resp.ok then .ok ()
    else .error ("N8N webhook returned " ++ toString resp.status ++ ": " ++ resp.body)

/-- N8nWebhookService.sendCallback: disabled service is a no-op; otherwise the
surrounding catch logs the error and does not rethrow. -/
def sendCallback (enabled : Bool) (fetchOutcome : Except String FetchResponse) :
    Except String Unit :=
  if !enabled then .ok ()
  else
    match sendCallbackTry fetchOutcome with
    | .error _ => .ok ()
    | .ok _ => .ok ()

end N8nWebhookService

namespace QueueService

/-- QueueService.logAttempt: wraps SupabaseService.logMessage in one more try
and catch that logs and swallows any failure. -/
def logAttempt (insertOutcome : InsertOutcome) : Except String Unit :=
  match SupabaseService.logMessage insertOutcome with
  | .error _ => .ok ()
  | .ok _ => .ok ()

end QueueService

/-- Observable events of one QueueService.processMessage run: audit rows sent
to logAttempt, callbacks handed to the notifier, sendMessage invocations with
the media argument they received, sleeps, temp file cleanup, and a marker for
an exception escaping processMessage (proved unreachable). -/
inductive Event
  | log (attempt : Nat) (status : MessageStatus) (errorCode : Option String)
  | callback (attempt : Nat) (status : MessageStatus) (success : Bool)
      (errorCode : Option String)
  | send (attempt : Nat) (mediaArg : Option Nat)
  | sleepBackoff (ms : Nat)
  | sleepInter
  | cleanup (count : Nat)
  | escaped (msg : String)
deriving DecidableEq

/-- Behaviour of the external sinks during a run: notifier configuration, the
Supabase insert outcome of each logAttempt call, and the fetch outcome of
each notifier call, indexed by attempt number and status. -/
structure SinkEnv where
  notifierEnabled : Bool
  audit : Nat → MessageStatus → InsertOutcome
  fetch : Nat → MessageStatus → Except String FetchResponse

/-- Sequencing of an awaited sink call inside the try block of
processMessage: an error would be handled by the catch handler. -/
def andThen (r : Except String Unit) (onErr : String → List Event)
    (next : List Event) : List Event :=
  match r with
  | .error e => onErr e
  | .ok _ => next

/-- The catch block of processMessage: log a FAILED row with code
UNEXPECTED_ERROR, send a failed callback, and return without retrying.  A
failure of logAttempt or sendCallback here would escape processMessage. -/
def catchEvents (env : SinkEnv) (attempt : Nat) : List Event :=
  Event.log attempt .failed (some "UNEXPECTED_ERROR") ::
    andThen (QueueService.logAttempt (env.audit attempt .failed)) (fun e => [.escaped e])
      (Event.callback attempt .failed false (some "UNEXPECTED_ERROR") ::
        andThen (N8nWebhookService.sendCallback env.notifierEnabled (env.fetch attempt .failed))
          (fun e => [.escaped e]) [])

/-- The while loop of QueueService.processMessage, as the trace of events of
the remaining iterations.  The parameter a is the current value of the
attempt counter (incremented at the top of each iteration), fuel is the
number of loop-condition checks still allowed, kept equal to
cfg.maxRetries - a by every caller, and driver gives the outcome of each
OpenPhoneService.sendMessage call. -/
def processLoop (cfg : QueueConfig) (env : SinkEnv)
    (driver : Nat → Option Nat → AttemptOutcome) (mediaArg : Option Nat)
    (a fuel : Nat) : List Event :=
  match fuel with
  | 0 => []
  | fuel' + 1 =>
    Event.log (a + 1) .sending none ::
      andThen (QueueService.logAttempt (env.audit (a + 1) .sending)) (fun _ => catchEvents env (a + 1))
        (Event.send (a + 1) mediaArg ::
          match driver (a + 1) mediaArg with
          | .exception _ => catchEvents env (a + 1)
          | .result r =>
            if r.success then
              Event.log (a + 1) .sent none ::
                andThen (QueueService.logAttempt (env.audit (a + 1) .sent)) (fun _ => catchEvents env (a + 1))
                  (Event.callback (a + 1) .sent true none ::
                    andThen (N8nWebhookService.sendCallback env.notifierEnabled (env.fetch (a + 1) .sent))
                      (fun _ => catchEvents env (a + 1)) [Event.sleepInter])
            else if retryGuard cfg r (a + 1) then
              Event.log (a + 1) .retrying r.errorCode ::
                andThen (QueueService.logAttempt (env.audit (a + 1) .retrying)) (fun _ => catchEvents env (a + 1))
                  (Event.callback (a + 1) .retrying false r.errorCode ::
                    andThen (N8nWebhookService.sendCallback env.notifierEnabled (env.fetch (a + 1) .retrying))
                      (fun _ => catchEvents env (a + 1))
                      (Event.sleepBackoff (retryDelayMs (a + 1)) ::
                        processLoop cfg env driver mediaArg (a + 1) fuel'))
            else
              Event.log (a + 1) .failed r.errorCode ::
                andThen (QueueService.logAttempt (env.audit (a + 1) .failed)) (fun _ => catchEvents env (a + 1))
                  (Event.callback (a + 1) .failed false r.errorCode ::
                    andThen (N8nWebhookService.sendCallback env.notifierEnabled (env.fetch (a + 1) .failed))
                      (fun _ => catchEvents env (a + 1)) [Event.sleepInter]))

/-- The same loop with the sink plumbing removed; proved equal to processLoop
for every sink environment because the sinks never propagate a failure. -/
def processLoopClean (cfg : QueueConfig)
    (driver : Nat → Option Nat → AttemptOutcome) (mediaArg : Option Nat)
    (a fuel : Nat) : List Event :=
  match fuel with
  | 0 => []
  | fuel' + 1 =>
    Event.log (a + 1) .sending none :: Event.send (a + 1) mediaArg ::
      match driver (a + 1) mediaArg with
      | .exception _ =>
        [Event.log (a + 1) .failed (some "UNEXPECTED_ERROR"),
         Event.callback (a + 1) .failed false (some "UNEXPECTED_ERROR")]
      | .result r =>
        if r.success then
          [Event.log (a + 1) .sent none, Event.callback (a + 1) .sent true none, Event.sleepInter]
        else if retryGuard cfg r (a + 1) then
          Event.log (a + 1) .retrying r.errorCode ::
            Event.callback (a + 1) .retrying false r.errorCode ::
            Event.sleepBackoff (retryDelayMs (a + 1)) ::
            processLoopClean cfg driver mediaArg (a + 1) fuel'
        else
          [Event.log (a + 1) .failed r.errorCode,
           Event.callback (a + 1) .failed false r.errorCode, Event.sleepInter]

/-- Number of media files staged to disk by processMessage before the loop:
zero when the payload has no media or when saveMediaFiles throws (the code
then resets the list and continues without media). -/
def stagedCount (p : WebhookPayload) (saveFails : Bool) : Nat :=
  if 0 < p.media.length then (if saveFails then 0 else p.media.length) else 0

/-- The media argument handed to sendMessage by the loop:
mediaFilePaths when non-empty, undefined otherwise. -/
def mediaArgOf (p : WebhookPayload) (saveFails : Bool) : Option Nat :=
  if 0 < stagedCount p saveFails then some (stagedCount p saveFails) else none

/-- QueueService.processMessage: stage media (possibly failing), run the
retry loop starting from attempt counter 0 with maxRetries loop checks, and
clean up the staged files in the finally block. -/
def processMessage (cfg : QueueConfig) (env : SinkEnv) (p : WebhookPayload)
    (driver : Nat → Option Nat → AttemptOutcome) (saveFails : Bool) : List Event :=
  processLoop cfg env driver (mediaArgOf p saveFails) 0 cfg.maxRetries ++
    (if 0 < stagedCount p saveFails then [Event.cleanup (stagedCount p saveFails)] else [])

/-- Whether an event is a sendMessage invocation. -/
def isSend : Event → Bool
  | .send _ _ => true
  | _ => false

/-- Whether an event is an audit row with a terminal status. -/
def isTerminalLog : Event → Bool
  | .log _ .sent _ => true
  | .log _ .failed _ => true
  | _ => false

/-- Whether an event is a notifier callback with a terminal status. -/
def isTerminalCb : Event → Bool
  | .callback _ .sent _ _ => true
  | .callback _ .failed _ _ => true
  | _ => false

/-- Whether an event is a RETRYING audit row or callback. -/
def isRetryingEvent : Event → Bool
  | .log _ .retrying _ => true
  | .callback _ .retrying _ _ => true
  | _ => false

/-- Whether an event is terminal (audit row or callback). -/
def isTerminalEvent (e : Event) : Bool := isTerminalLog e || isTerminalCb e

/-- Whether an event is a notifier callback with status sending. -/
def isSendingCb : Event → Bool
  | .callback _ .sending _ _ => true
  | _ => false

/-- Whether an event is an escape of an exception out of processMessage. -/
def isEscaped : Event → Bool
  | .escaped _ => true
  | _ => false

/-- Scanning check that no RETRYING row or callback appears once a terminal
event has been seen. -/
def noRetryAfterTerminal (seen : Bool) : List Event → Bool
  | [] => true
  | e :: rest =>
    !(seen && isRetryingEvent e) && noRetryAfterTerminal (seen || isTerminalEvent e) rest

/-! Media validation and the ingress handler (src/utils/helpers.ts and
src/server/app.ts). -/

/-- Quo limit constants from src/utils/helpers.ts. -/
def QUO_MAX_TOTAL_SIZE : Nat := 5 * 1024 * 1024

/-- Maximum attachments per message. -/
def QUO_MAX_ATTACHMENTS : Nat := 10

/-- Advisory size ceiling in bytes. -/
def RECOMMENDED_SIZE : Nat := 600 * 1024

/-- Supported MIME types for MMS. -/
def SUPPORTED_MIME_TYPES : List String :=
  ["image/jpeg", "image/jpg", "image/png", "image/gif", "image/webp",
   "application/pdf", "video/mp4", "video/quicktime"]

/-- Character class of the base64 regex body. -/
def isB64Char (c : Char) : Bool :=
  c.isAlpha || c.isDigit || c == '+' || c == '/'

/-- The base64 regex test of validateMediaFile: a run of base64 characters
followed by at most two padding characters. -/
def validBase64 (s : String) : Bool :=
  match s.data.dropWhile isB64Char with
  | [] => true
  | ['='] => true
  | ['=', '='] => true
  | _ => false

/-- Result of validateMediaFile. -/
structure SingleValidation where
  valid : Bool
  error : Option String
deriving DecidableEq

/-- validateMediaFile from src/utils/helpers.ts: required fields, supported
MIME type, well-formed base64 (in that order, first failure wins). -/
def validateMediaFile (media : MediaFile) : SingleValidation :=
  if media.filename == "" || media.mimeType == "" || media.data == "" then
    ⟨false, some "Missing required fields (filename, mimeType, data)"⟩
  else if !(SUPPORTED_MIME_TYPES.contains media.mimeType) then
    ⟨false, some ("Unsupported MIME type: " ++ media.mimeType)⟩
  else if !(validBase64 media.data) then
    ⟨false, some "Invalid base64 encoding"⟩
  else ⟨true, none⟩

/-- MediaValidationResult from src/utils/helpers.ts. -/
structure MediaValidationResult where
  valid : Bool
  error : Option String
  warning : Option String
  totalSizeBytes : Option Nat
  fileCount : Option Nat
deriving DecidableEq

/-- Math.ceil(n * 0.75): decoded size estimate of a base64 string of length n
(0.75 is exactly representable, so the ceiling is exact). -/
def fileSizeBytes (n : Nat) : Nat := (3 * n + 3) / 4

/-- The per-file loop of validateMediaFiles: the error of the first file that
fails format validation, with its 1-based index and filename. -/
def firstFormatError : List MediaFile → Nat → Option String
  | [], _ => none
  | m :: rest, i =>
    let v := validateMediaFile m
    if v.valid then firstFormatError rest (i + 1)
    else some ("File " ++ toString (i + 1) ++ " (" ++ m.filename ++ "): " ++ v.error.getD "")

/-- Aggregate decoded size of a media list. -/
def totalSizeOf (l : List MediaFile) : Nat :=
  (l.map fun m => fileSizeBytes m.data.length).sum

/-- Number.prototype.toFixed(2) of num / den, embedded as round-half-up of
num * 100 / den rendered with two decimals (exact for the exactly
representable quotients produced here). -/
def toFixed2 (num den : Nat) : String :=
  let scaled := (num * 200 + den) / (den * 2)
  toString (scaled / 100) ++ "." ++ (if scaled % 100 < 10 then "0" else "") ++
    toString (scaled % 100)

/-- Math.round(num / den). -/
def roundDiv (num den : Nat) : Nat := (2 * num + den) / (2 * den)

/-- Error text of the aggregate size branch of validateMediaFiles. -/
def sizeErrorText (total : Nat) : String :=
  "Total media size (" ++ toFixed2 total (1024 * 1024) ++ "MB) exceeds Quo limit (" ++
    toString (QUO_MAX_TOTAL_SIZE / (1024 * 1024)) ++ "MB)"

/-- Error text of the attachment count branch of validateMediaFiles. -/
def tooManyText (count : Nat) : String :=
  "Too many attachments (" ++ toString count ++ "). Maximum is " ++
    toString QUO_MAX_ATTACHMENTS ++ " files per message."

/-- Warning text of the advisory size branch of validateMediaFiles. -/
def sizeWarningText (total : Nat) : String :=
  "Total size (" ++ toString (roundDiv total 1024) ++
    "KB) exceeds recommended 600KB. Some carriers may have issues receiving. Quo will auto-resize images if needed."

/-- validateMediaFiles from src/utils/helpers.ts. -/
def validateMediaFiles (mediaFiles : List MediaFile) : MediaValidationResult :=
  if mediaFiles.length == 0 then ⟨true, none, none, some 0, some 0⟩
  else if QUO_MAX_ATTACHMENTS < mediaFiles.length then
    ⟨false, some (tooManyText mediaFiles.length), none, none, some mediaFiles.length⟩
  else
    match firstFormatError mediaFiles 0 with
    | some err => ⟨false, some err, none, none, none⟩
    | none =>
      let total := totalSizeOf mediaFiles
      if QUO_MAX_TOTAL_SIZE < total then
        ⟨false, some (sizeErrorText total), none, some total, some mediaFiles.length⟩
      else
        ⟨true, none,
          (if RECOMMENDED_SIZE < total then some (sizeWarningText total) else none),
          some total, some mediaFiles.length⟩

/-- Character filter of the phone normalisation in the ingress handler:
phone.replace removing whitespace, dashes and parentheses. -/
def stripPhoneChar (c : Char) : Bool :=
  !(c.isWhitespace || c == '-' || c == '(' || c == ')')

/-- The phone regex of the ingress handler: optional leading plus, then 10 to
15 digits. -/
def phoneRegexOk (phone : String) : Bool :=
  let cs := (phone.data.filter stripPhoneChar)
  let ds := match cs with
    | '+' :: rest => rest
    | other => other
  decide (10 ≤ ds.length) && decide (ds.length ≤ 15) && ds.all Char.isDigit

/-- Result of the POST /webhook/send handler before any queue work: either a
400 rejection carrying an error code and message, or acceptance into the
queue with an optional logged size warning. -/
inductive IngressOutcome
  | rejected (status : Nat) (errorCode : String) (error : Option String)
  | enqueued (warning : Option String)
deriving DecidableEq

/-- The validation part of the POST /webhook/send handler in
src/server/app.ts: missing fields, phone format, then media validation; only
a payload passing all checks is added to the queue. -/
def handleWebhookSend (p : WebhookPayload) : IngressOutcome :=
  if p.phone == "" || p.text == "" then
    .rejected 400 "VALIDATION_ERROR" (some "Missing required fields: phone and text")
  else if !(phoneRegexOk p.phone) then
    .rejected 400 "INVALID_PHONE" (some "Invalid phone number format")
  else if 0 < p.media.length then
    let v := validateMediaFiles p.media
    if !v.valid then .rejected 400 "INVALID_MEDIA" v.error
    else .enqueued v.warning
  else .enqueued none

/-- The error code of an ingress outcome, none when the message was accepted. -/
def ingressErrorCode : IngressOutcome → Option String
  | .rejected _ c _ => some c
  | .enqueued _ => none

/-- Whether the ingress outcome enqueues the message (and can hence ever lead
to an attempt record). -/
def enqueues : IngressOutcome → Bool
  | .rejected _ _ _ => false
  | .enqueued _ => true

/-! Post-send verification (OpenPhoneService.verifyMessageSent and the tail
of OpenPhoneService.sendMessage in the openphone service). -/

/-- What happens for one error selector during the verification scan: the
query throws, finds nothing, or finds an element whose textContent read
either throws or yields a text. -/
inductive SelectorOutcome
  | queryThrows
  | absent
  | found (textResult : Except String String)

/-- The selector loop of verifyMessageSent: the first selector that finds an
element and reads its text classifies the attempt as failed; a throw
anywhere in an iteration is caught and the loop continues. -/
def scanSelectors : List SelectorOutcome → Bool
  | [] => true
  | .queryThrows :: rest => scanSelectors rest
  | .absent :: rest => scanSelectors rest
  | .found (.error _) :: rest => scanSelectors rest
  | .found (.ok _) :: _ => false

/-- OpenPhoneService.verifyMessageSent: the screenshot step may throw, in
which case the outer catch logs a warning and returns true; otherwise the
selector scan decides. -/
def verifyMessageSent (shot : Except String Unit)
    (outcomes : List SelectorOutcome) : Bool :=
  match shot with
  | .error _ => true
  | .ok _ => scanSelectors outcomes

/-- How far one OpenPhoneService.sendMessage call gets: either an exception
with the given name and message escapes steps 1-5, or the call reaches the
verification step with the given screenshot and scan behaviour. -/
inductive SendSteps
  | stepsThrow (name msg : String)
  | reachVerify (shot : Except String Unit) (scan : List SelectorOutcome)

/-- OpenPhoneService.sendMessage, from the verification step on: a verified
send returns success with status SENT; a failed verification throws, and the
surrounding catch returns a failure result with errorCode error.name. -/
def sendMessage (steps : SendSteps) (durationMs : Nat) : MessageResult :=
  match steps with
  | .stepsThrow name msg =>
    ⟨false, .failed, some msg, some (if name == "" then "UNKNOWN_ERROR" else name),
      some durationMs⟩
  | .reachVerify shot scan =>
    if verifyMessageSent shot scan then
      ⟨true, .sent, none, none, some durationMs⟩
    else
      ⟨false, .failed, some "Message sending verification failed", some "Error",
        some durationMs⟩

/-! The dispatch queue concurrency model (claim about the p-queue instance
constructed in the QueueService constructor).

Modelled from the spec: the p-queue library itself is an external dependency
whose source is not part of this repository; its documented scheduling
contract (a task starts only while fewer than concurrency tasks are running;
pausing blocks dequeuing and never cancels a running task) is embedded as a
labelled transition system, instantiated with the concurrency value 1 passed
by the QueueService constructor. -/

/-- Observable queue state: number of in-flight tasks, number of queued
tasks, and the paused flag. -/
structure PQueueState where
  inFlight : Nat
  queued : Nat
  isPaused : Bool
deriving DecidableEq

/-- The transitions of the concurrency-bounded task queue. -/
inductive PQueueStep (concurrency : Nat) : PQueueState → PQueueState → Prop
  | add (s : PQueueState) :
      PQueueStep concurrency s ⟨s.inFlight, s.queued + 1, s.isPaused⟩
  | start (s : PQueueState) (hp : s.isPaused = false)
      (hc : s.inFlight < concurrency) (hq : 0 < s.queued) :
      PQueueStep concurrency s ⟨s.inFlight + 1, s.queued - 1, s.isPaused⟩
  | finish (s : PQueueState) (hf : 0 < s.inFlight) :
      PQueueStep concurrency s ⟨s.inFlight - 1, s.queued, s.isPaused⟩
  | pause (s : PQueueState) :
      PQueueStep concurrency s ⟨s.inFlight, s.queued, true⟩
  | resume (s : PQueueState) :
      PQueueStep concurrency s ⟨s.inFlight, s.queued, false⟩
  | clear (s : PQueueState) :
      PQueueStep concurrency s ⟨s.inFlight, 0, s.isPaused⟩

/-- States reachable from the initial empty queue. -/
inductive PQueueReachable (concurrency : Nat) : PQueueState → Prop
  | init : PQueueReachable concurrency ⟨0, 0, false⟩
  | step {s t : PQueueState} : PQueueReachable concurrency s →
      PQueueStep concurrency s t → PQueueReachable concurrency t

/-- The concurrency value passed to the PQueue constructor in the
QueueService constructor. -/
def queueConcurrency : Nat := 1

/-- Whether no selector outcome of a verification scan yields a readable
error element (every query throws, finds nothing, or its text read throws). -/
def noReadableErrorElement (scan : List SelectorOutcome) : Bool :=
  scan.all fun o =>
    match o with
    | .found (.ok _) => false
    | _ => true

/-! Concrete fixtures used to evaluate the definitions on explicit inputs. -/

/-- Default queue configuration values from src/config/index.ts. -/
def cfgDefault : QueueConfig := ⟨8000, 20000, 3⟩

/-- A sink environment where every insert succeeds and every notifier fetch
returns a 200 response. -/
def envOkSinks : SinkEnv := ⟨true, fun _ _ => .ok none, fun _ _ => .ok ⟨true, 200, "ok"⟩⟩

/-- A plain text payload without media. -/
def payloadPlain : WebhookPayload := ⟨"+15551234567", "hello", some "order_123", []⟩

/-- A failure result whose errorCode matches the retryable marker list. -/
def timeoutResult : MessageResult :=
  ⟨false, .failed, some "Navigation timeout of 60000 ms exceeded",
    some "TimeoutError", some 1200⟩

/-- A success result. -/
def sentResult : MessageResult := ⟨true, .sent, none, none, some 900⟩

/-- Driver that fails with a retryable timeout on attempt 1 and succeeds on
every later attempt. -/
def driverTimeoutThenSent : Nat → Option Nat → AttemptOutcome :=
  fun k _ => if k = 1 then .result timeoutResult else .result sentResult

/-- Driver that fails with a retryable timeout on every attempt. -/
def driverAllTimeout : Nat → Option Nat → AttemptOutcome :=
  fun _ _ => .result timeoutResult

/-- Driver that succeeds on every attempt. -/
def driverAllSent : Nat → Option Nat → AttemptOutcome :=
  fun _ _ => .result sentResult

/-- Driver whose sendMessage call throws on every attempt. -/
def driverThrows : Nat → Option Nat → AttemptOutcome :=
  fun _ _ => .exception "page crashed"

/-- A supported attachment with well-formed base64 data. -/
def jpegFile : MediaFile := ⟨"photo.jpg", "image/jpeg", "QUJDRA=="⟩

/-- A payload with twelve attachments. -/
def payloadTwelve : WebhookPayload :=
  ⟨"+15551234567", "hello", none, List.replicate 12 jpegFile⟩

/-- An attachment with an unsupported MIME type. -/
def textFile : MediaFile := ⟨"notes.txt", "text/plain", "QUJD"⟩

/-- An attachment with malformed base64 data. -/
def badBase64File : MediaFile := ⟨"pic.png", "image/png", "QQ=&"⟩

/-! Helper lemmas about the sinks and the loop. -/

theorem logMessage_ok (io : InsertOutcome) : SupabaseService.logMessage io = .ok () := by
  unfold SupabaseService.logMessage SupabaseService.logMessageTry
  cases io with
  | error e => rfl
  | ok v => cases v <;> rfl

theorem logAttempt_ok (io : InsertOutcome) : QueueService.logAttempt io = .ok () := by
  unfold QueueService.logAttempt
  rw [logMessage_ok]

theorem sendCallback_ok (b : Bool) (f : Except String FetchResponse) :
    N8nWebhookService.sendCallback b f = .ok () := by
  unfold N8nWebhookService.sendCallback N8nWebhookService.sendCallbackTry
  cases b with
  | false => rfl
  | true =>
    cases f with
    | error e => rfl
    | ok resp => cases hr : resp.ok <;> simp [hr]

theorem uploadScreenshot_ok (fe : Bool) (rr : Except String Unit)
    (ue : Option String) (url : String) :
    ∃ v, SupabaseService.uploadScreenshot fe rr ue url = .ok v := by
  unfold SupabaseService.uploadScreenshot SupabaseService.uploadScreenshotTry
  cases fe <;> cases rr <;> [skip; skip; skip; cases ue] <;> simp

theorem andThen_ok (f : String → List Event) (next : List Event) :
    andThen (.ok ()) f next = next := rfl

theorem catchEvents_eq (env : SinkEnv) (k : Nat) :
    catchEvents env k =
      [Event.log k .failed (some "UNEXPECTED_ERROR"),
       Event.callback k .failed false (some "UNEXPECTED_ERROR")] := by
  unfold catchEvents
  rw [logAttempt_ok, sendCallback_ok]
  rfl

theorem processLoop_eq_clean (cfg : QueueConfig) (env : SinkEnv)
    (driver : Nat → Option Nat → AttemptOutcome) (mediaArg : Option Nat) :
    ∀ fuel a, processLoop cfg env driver mediaArg a fuel
      = processLoopClean cfg driver mediaArg a fuel := by
  intro fuel
  induction fuel with
  | zero => intro a; rfl
  | succ fuel ih =>
    intro a
    unfold processLoop processLoopClean
    simp only [logAttempt_ok, sendCallback_ok, andThen_ok, catchEvents_eq]
    cases h : driver (a + 1) mediaArg with
    | exception msg => rfl
    | result r =>
      by_cases hs : r.success = true
      · simp [hs]
      · by_cases hg : retryGuard cfg r (a + 1) = true <;>
          simp [hs, hg, ih]

theorem countP_send_loopClean (cfg : QueueConfig)
    (driver : Nat → Option Nat → AttemptOutcome) (arg : Option Nat) :
    ∀ fuel a, (processLoopClean cfg driver arg a fuel).countP isSend ≤ fuel := by
  intro fuel
  induction fuel with
  | zero => intro a; simp [processLoopClean]
  | succ fuel ih =>
    intro a
    unfold processLoopClean
    cases hd : driver (a + 1) arg with
    | exception msg => simp [List.countP_cons, isSend]
    | result r =>
      by_cases hs : r.success = true
      · simp [hs, List.countP_cons, isSend]
      · by_cases hg : retryGuard cfg r (a + 1) = true
        · simp only [hs, hg, if_true, if_false, Bool.false_eq_true,
            List.countP_cons, isSend]
          have := ih (a + 1)
          omega
        · simp [hs, hg, List.countP_cons, isSend]

theorem no_sendingCb_loopClean (cfg : QueueConfig)
    (driver : Nat → Option Nat → AttemptOutcome) (arg : Option Nat) :
    ∀ fuel a, (processLoopClean cfg driver arg a fuel).countP isSendingCb = 0 := by
  intro fuel
  induction fuel with
  | zero => intro a; simp [processLoopClean]
  | succ fuel ih =>
    intro a
    unfold processLoopClean
    cases hd : driver (a + 1) arg with
    | exception msg => simp [List.countP_cons, isSendingCb]
    | result r =>
      by_cases hs : r.success = true
      · simp [hs, List.countP_cons, isSendingCb]
      · by_cases hg : retryGuard cfg r (a + 1) = true
        · simp [hs, hg, List.countP_cons, isSendingCb, ih (a + 1)]
        · simp [hs, hg, List.countP_cons, isSendingCb]

theorem send_mem_loopClean (cfg : QueueConfig)
    (driver : Nat → Option Nat → AttemptOutcome) (arg : Option Nat) :
    ∀ fuel a k arg2, Event.send k arg2 ∈ processLoopClean cfg driver arg a fuel →
      arg2 = arg ∧ a + 1 ≤ k ∧ k ≤ a + fuel ∧
      (a + 1 < k → ∃ r, driver (k - 1) arg = .result r ∧ r.success = false ∧
        retryGuard cfg r (k - 1) = true) := by
  intro fuel
  induction fuel with
  | zero => intro a k arg2 h; simp [processLoopClean] at h
  | succ fuel ih =>
    intro a k arg2 h
    unfold processLoopClean at h
    rcases List.mem_cons.mp h with h1 | h
    · exact absurd h1 (by simp)
    rcases List.mem_cons.mp h with h1 | h
    · simp only [Event.send.injEq] at h1
      obtain ⟨rfl, rfl⟩ := h1
      exact ⟨rfl, Nat.le_refl _, by omega, fun hlt => absurd hlt (by omega)⟩
    cases hd : driver (a + 1) arg with
    | exception msg => rw [hd] at h; simp at h
    | result r =>
      rw [hd] at h
      by_cases hs : r.success = true
      · simp [hs] at h
      · simp only [Bool.not_eq_true] at hs
        by_cases hg : retryGuard cfg r (a + 1) = true
        · simp only [hs, hg, Bool.false_eq_true, if_false, if_true,
            List.mem_cons] at h
          rcases h with h1 | h1 | h1 | h
          · exact absurd h1 (by simp)
          · exact absurd h1 (by simp)
          · exact absurd h1 (by simp)
          · obtain ⟨ha, h2, h3, h4⟩ := ih (a + 1) k arg2 h
            refine ⟨ha, by omega, by omega, fun _ => ?_⟩
            rcases Nat.lt_or_ge (a + 2) k with h5 | h5
            · exact h4 h5
            · have hk : k = a + 2 := by omega
              subst hk
              exact ⟨r, hd, hs, hg⟩
        · simp [hs, hg] at h

theorem retryGuard_lt {cfg : QueueConfig} {r : MessageResult} {k : Nat}
    (h : retryGuard cfg r k = true) : k < cfg.maxRetries := by
  simp only [retryGuard, Bool.and_eq_true, decide_eq_true_eq] at h
  exact h.1.1

theorem terminal_counts_loopClean (cfg : QueueConfig)
    (driver : Nat → Option Nat → AttemptOutcome) (arg : Option Nat) :
    ∀ fuel a, a + fuel = cfg.maxRetries → 1 ≤ fuel →
      (processLoopClean cfg driver arg a fuel).countP isTerminalLog = 1 ∧
      (processLoopClean cfg driver arg a fuel).countP isTerminalCb = 1 := by
  intro fuel
  induction fuel with
  | zero => intro a _ h; exact absurd h (by omega)
  | succ fuel ih =>
    intro a hinv _
    unfold processLoopClean
    cases hd : driver (a + 1) arg with
    | exception msg => simp [List.countP_cons, isTerminalLog, isTerminalCb]
    | result r =>
      by_cases hs : r.success = true
      · simp [hs, List.countP_cons, isTerminalLog, isTerminalCb]
      · by_cases hg : retryGuard cfg r (a + 1) = true
        · have hlt : a + 1 < cfg.maxRetries := retryGuard_lt hg
          have hih := ih (a + 1) (by omega) (by omega)
          simp [hs, hg, List.countP_cons, isTerminalLog, isTerminalCb,
            hih.1, hih.2]
        · simp [hs, hg, List.countP_cons, isTerminalLog, isTerminalCb]

theorem noRetryAfter_loopClean (cfg : QueueConfig)
    (driver : Nat → Option Nat → AttemptOutcome) (arg : Option Nat) :
    ∀ fuel a,
      noRetryAfterTerminal false (processLoopClean cfg driver arg a fuel) = true := by
  intro fuel
  induction fuel with
  | zero => intro a; rfl
  | succ fuel ih =>
    intro a
    unfold processLoopClean
    cases hd : driver (a + 1) arg with
    | exception msg =>
      simp [noRetryAfterTerminal, isRetryingEvent, isTerminalEvent,
        isTerminalLog, isTerminalCb]
    | result r =>
      by_cases hs : r.success = true
      · simp [hs, noRetryAfterTerminal, isRetryingEvent, isTerminalEvent,
          isTerminalLog, isTerminalCb]
      · by_cases hg : retryGuard cfg r (a + 1) = true
        · simp [hs, hg, noRetryAfterTerminal, isRetryingEvent, isTerminalEvent,
            isTerminalLog, isTerminalCb, ih (a + 1)]
        · simp [hs, hg, noRetryAfterTerminal, isRetryingEvent, isTerminalEvent,
            isTerminalLog, isTerminalCb]

theorem noRetryAfterTerminal_of_no_retry :
    ∀ (l : List Event) (seen : Bool),
      (l.all fun e => !isRetryingEvent e) = true →
      noRetryAfterTerminal seen l = true := by
  intro l
  induction l with
  | nil => intro seen _; rfl
  | cons e rest ih =>
    intro seen hall
    simp only [List.all_cons, Bool.and_eq_true] at hall
    simp only [noRetryAfterTerminal, Bool.and_eq_true]
    refine ⟨?_, ih _ hall.2⟩
    cases seen <;> simp_all

theorem noRetryAfterTerminal_append :
    ∀ (l r : List Event) (seen : Bool),
      noRetryAfterTerminal seen l = true →
      (∀ s, noRetryAfterTerminal s r = true) →
      noRetryAfterTerminal seen (l ++ r) = true := by
  intro l
  induction l with
  | nil => intro r seen _ hr; exact hr seen
  | cons e rest ih =>
    intro r seen hl hr
    simp only [noRetryAfterTerminal, Bool.and_eq_true, List.cons_append] at hl ⊢
    exact ⟨hl.1, ih r _ hl.2 hr⟩

theorem loopClean_succ_head (cfg : QueueConfig)
    (driver : Nat → Option Nat → AttemptOutcome) (arg : Option Nat)
    (a fuel : Nat) :
    ∃ rest, processLoopClean cfg driver arg a (fuel + 1) =
      Event.log (a + 1) .sending none :: Event.send (a + 1) arg :: rest :=
  ⟨_, rfl⟩

theorem backoff_mem_loopClean (cfg : QueueConfig)
    (driver : Nat → Option Nat → AttemptOutcome) (arg : Option Nat) :
    ∀ fuel a ms, a + fuel = cfg.maxRetries →
      Event.sleepBackoff ms ∈ processLoopClean cfg driver arg a fuel →
      ∃ k r, a + 1 ≤ k ∧ k < cfg.maxRetries ∧ driver k arg = .result r ∧
        r.success = false ∧ retryGuard cfg r k = true ∧ ms = retryDelayMs k ∧
        ∃ l rest, processLoopClean cfg driver arg a fuel =
          l ++ Event.sleepBackoff (retryDelayMs k) ::
            Event.log (k + 1) .sending none :: Event.send (k + 1) arg :: rest := by
  intro fuel
  induction fuel with
  | zero => intro a ms _ h; simp [processLoopClean] at h
  | succ fuel ih =>
    intro a ms hinv h
    unfold processLoopClean at h
    rcases List.mem_cons.mp h with h1 | h
    · exact absurd h1 (by simp)
    rcases List.mem_cons.mp h with h1 | h
    · exact absurd h1 (by simp)
    cases hd : driver (a + 1) arg with
    | exception msg => rw [hd] at h; simp at h
    | result r =>
      rw [hd] at h
      by_cases hs : r.success = true
      · simp [hs] at h
      · simp only [Bool.not_eq_true] at hs
        by_cases hg : retryGuard cfg r (a + 1) = true
        · simp only [hs, hg, Bool.false_eq_true, if_false, if_true,
            List.mem_cons] at h
          have hlt : a + 1 < cfg.maxRetries := retryGuard_lt hg
          have hfuel : 1 ≤ fuel := by omega
          obtain ⟨fuel2, rfl⟩ : ∃ f2, fuel = f2 + 1 :=
            ⟨fuel - 1, by omega⟩
          have hstep : processLoopClean cfg driver arg a (fuel2 + 1 + 1) =
              Event.log (a + 1) .sending none :: Event.send (a + 1) arg ::
              Event.log (a + 1) .retrying r.errorCode ::
              Event.callback (a + 1) .retrying false r.errorCode ::
              Event.sleepBackoff (retryDelayMs (a + 1)) ::
              processLoopClean cfg driver arg (a + 1) (fuel2 + 1) := by
            conv_lhs => rw [processLoopClean]
            rw [hd]
            simp [hs, hg]
          rcases h with h1 | h1 | h1 | h
          · exact absurd h1 (by simp)
          · exact absurd h1 (by simp)
          · simp only [Event.sleepBackoff.injEq] at h1
            subst h1
            obtain ⟨rest2, hr2⟩ := loopClean_succ_head cfg driver arg (a + 1) fuel2
            refine ⟨a + 1, r, Nat.le_refl _, hlt, hd, hs, hg, rfl,
              [Event.log (a + 1) .sending none, Event.send (a + 1) arg,
               Event.log (a + 1) .retrying r.errorCode,
               Event.callback (a + 1) .retrying false r.errorCode], rest2, ?_⟩
            rw [hstep, hr2]
            rfl
          · obtain ⟨k, r2, hk1, hk2, hk3, hk4, hk5, hk6, l2, rest2, hdec⟩ :=
              ih (a + 1) ms (by omega) h
            refine ⟨k, r2, by omega, hk2, hk3, hk4, hk5, hk6,
              Event.log (a + 1) .sending none :: Event.send (a + 1) arg ::
              Event.log (a + 1) .retrying r.errorCode ::
              Event.callback (a + 1) .retrying false r.errorCode ::
              Event.sleepBackoff (retryDelayMs (a + 1)) :: l2, rest2, ?_⟩
            rw [hstep, hdec]
            rfl
        · simp [hs, hg] at h

theorem exception_loopClean (cfg : QueueConfig)
    (driver : Nat → Option Nat → AttemptOutcome) (arg : Option Nat) :
    ∀ fuel a k arg2 msg,
      Event.send k arg2 ∈ processLoopClean cfg driver arg a fuel →
      driver k arg = .exception msg →
      (∀ j argj, Event.send j argj ∈ processLoopClean cfg driver arg a fuel → j ≤ k) ∧
      Event.log k .failed (some "UNEXPECTED_ERROR") ∈ processLoopClean cfg driver arg a fuel ∧
      Event.callback k .failed false (some "UNEXPECTED_ERROR") ∈ processLoopClean cfg driver arg a fuel ∧
      (processLoopClean cfg driver arg a fuel).countP isTerminalLog = 1 ∧
      (processLoopClean cfg driver arg a fuel).countP isTerminalCb = 1 := by
  intro fuel
  induction fuel with
  | zero => intro a k arg2 msg h _; simp [processLoopClean] at h
  | succ fuel ih =>
    intro a k arg2 msg h hexc
    have hmem := send_mem_loopClean cfg driver arg (fuel + 1) a k arg2 h
    by_cases hk : k = a + 1
    · subst hk
      unfold processLoopClean
      rw [hexc]
      refine ⟨?_, by simp, by simp,
        by simp [List.countP_cons, isTerminalLog, isTerminalCb],
        by simp [List.countP_cons, isTerminalLog, isTerminalCb]⟩
      intro j argj hj
      simp only [List.mem_cons, List.not_mem_nil, or_false] at hj
      rcases hj with h1 | h1 | h1 | h1
      · exact absurd h1 (by simp)
      · simp only [Event.send.injEq] at h1; omega
      · exact absurd h1 (by simp)
      · exact absurd h1 (by simp)
    · have hkgt : a + 1 < k := by omega
      unfold processLoopClean at h ⊢
      cases hd : driver (a + 1) arg with
      | exception msg2 =>
        rw [hd] at h
        simp only [List.mem_cons, List.not_mem_nil, or_false] at h
        rcases h with h1 | h1 | h1 | h1
        · exact absurd h1 (by simp)
        · simp only [Event.send.injEq] at h1; omega
        · exact absurd h1 (by simp)
        · exact absurd h1 (by simp)
      | result r0 =>
        rw [hd] at h
        by_cases hs : r0.success = true
        · simp [hs] at h
          exact absurd h.1 (by omega)
        · simp only [Bool.not_eq_true] at hs
          by_cases hg : retryGuard cfg r0 (a + 1) = true
          · simp only [hs, hg, Bool.false_eq_true, if_false, if_true,
              List.mem_cons] at h
            rcases h with h1 | h1 | h1 | h1 | h1 | h
            · exact absurd h1 (by simp)
            · simp only [Event.send.injEq] at h1; omega
            · exact absurd h1 (by simp)
            · exact absurd h1 (by simp)
            · exact absurd h1 (by simp)
            · obtain ⟨hbound, hlog, hcb, hc1, hc2⟩ := ih (a + 1) k arg2 msg h hexc
              simp only [hs, hg, Bool.false_eq_true, if_false, if_true]
              refine ⟨?_, ?_, ?_, ?_, ?_⟩
              · intro j argj hj
                simp only [List.mem_cons] at hj
                rcases hj with h1 | h1 | h1 | h1 | h1 | hj
                · exact absurd h1 (by simp)
                · simp only [Event.send.injEq] at h1; omega
                · exact absurd h1 (by simp)
                · exact absurd h1 (by simp)
                · exact absurd h1 (by simp)
                · exact hbound j argj hj
              · simp only [List.mem_cons]
                exact Or.inr (Or.inr (Or.inr (Or.inr (Or.inr hlog))))
              · simp only [List.mem_cons]
                exact Or.inr (Or.inr (Or.inr (Or.inr (Or.inr hcb))))
              · simp [List.countP_cons, isTerminalLog, hc1]
              · simp [List.countP_cons, isTerminalCb, hc2]
          · simp [hs, hg] at h
            exact absurd h.1 (by omega)

theorem transitions_loopClean (cfg : QueueConfig)
    (driver : Nat → Option Nat → AttemptOutcome) (arg : Option Nat) :
    ∀ fuel a,
      (∀ k arg2, Event.send k arg2 ∈ processLoopClean cfg driver arg a fuel →
        Event.log k .sending none ∈ processLoopClean cfg driver arg a fuel) ∧
      (∀ k st code, Event.log k st code ∈ processLoopClean cfg driver arg a fuel →
        st ≠ .sending →
        Event.callback k st (decide (st = .sent)) code ∈
          processLoopClean cfg driver arg a fuel) := by
  intro fuel
  induction fuel with
  | zero =>
    intro a
    constructor
    · intro k arg2 h; simp [processLoopClean] at h
    · intro k st code h _; simp [processLoopClean] at h
  | succ fuel ih =>
    intro a
    unfold processLoopClean
    cases hd : driver (a + 1) arg with
    | exception msg =>
      constructor
      · intro k arg2 hj
        simp only [List.mem_cons, List.not_mem_nil, or_false] at hj ⊢
        rcases hj with h1 | h1 | h1 | h1
        · exact absurd h1 (by simp)
        · simp only [Event.send.injEq] at h1
          exact Or.inl (by simp [h1.1])
        · exact absurd h1 (by simp)
        · exact absurd h1 (by simp)
      · intro k st code hj hst
        simp only [List.mem_cons, List.not_mem_nil, or_false] at hj ⊢
        rcases hj with h1 | h1 | h1 | h1
        · simp only [Event.log.injEq] at h1
          exact absurd h1.2.1 hst
        · exact absurd h1 (by simp)
        · simp only [Event.log.injEq] at h1
          obtain ⟨rfl, rfl, rfl⟩ := h1
          exact Or.inr (Or.inr (Or.inr (by simp)))
        · exact absurd h1 (by simp)
    | result r =>
      by_cases hs : r.success = true
      · simp only [hs, if_true]
        constructor
        · intro k arg2 hj
          simp only [List.mem_cons, List.not_mem_nil, or_false] at hj ⊢
          rcases hj with h1 | h1 | h1 | h1 | h1
          · exact absurd h1 (by simp)
          · simp only [Event.send.injEq] at h1
            exact Or.inl (by simp [h1.1])
          · exact absurd h1 (by simp)
          · exact absurd h1 (by simp)
          · exact absurd h1 (by simp)
        · intro k st code hj hst
          simp only [List.mem_cons, List.not_mem_nil, or_false] at hj ⊢
          rcases hj with h1 | h1 | h1 | h1 | h1
          · simp only [Event.log.injEq] at h1
            exact absurd h1.2.1 hst
          · exact absurd h1 (by simp)
          · simp only [Event.log.injEq] at h1
            obtain ⟨rfl, rfl, rfl⟩ := h1
            exact Or.inr (Or.inr (Or.inr (Or.inl (by simp))))
          · exact absurd h1 (by simp)
          · exact absurd h1 (by simp)
      · by_cases hg : retryGuard cfg r (a + 1) = true
        · simp only [hs, hg, Bool.false_eq_true, if_false, if_true]
          have hih := ih (a + 1)
          constructor
          · intro k arg2 hj
            simp only [List.mem_cons] at hj ⊢
            rcases hj with h1 | h1 | h1 | h1 | h1 | hj
            · exact absurd h1 (by simp)
            · simp only [Event.send.injEq] at h1
              exact Or.inl (by simp [h1.1])
            · exact absurd h1 (by simp)
            · exact absurd h1 (by simp)
            · exact absurd h1 (by simp)
            · have := hih.1 k arg2 hj
              exact Or.inr (Or.inr (Or.inr (Or.inr (Or.inr this))))
          · intro k st code hj hst
            simp only [List.mem_cons] at hj ⊢
            rcases hj with h1 | h1 | h1 | h1 | h1 | hj
            · simp only [Event.log.injEq] at h1
              exact absurd h1.2.1 hst
            · exact absurd h1 (by simp)
            · simp only [Event.log.injEq] at h1
              obtain ⟨rfl, rfl, rfl⟩ := h1
              exact Or.inr (Or.inr (Or.inr (Or.inl (by simp))))
            · exact absurd h1 (by simp)
            · exact absurd h1 (by simp)
            · have := hih.2 k st code hj hst
              exact Or.inr (Or.inr (Or.inr (Or.inr (Or.inr this))))
        · simp only [hs, hg, Bool.false_eq_true, if_false]
          constructor
          · intro k arg2 hj
            simp only [List.mem_cons, List.not_mem_nil, or_false] at hj ⊢
            rcases hj with h1 | h1 | h1 | h1 | h1
            · exact absurd h1 (by simp)
            · simp only [Event.send.injEq] at h1
              exact Or.inl (by simp [h1.1])
            · exact absurd h1 (by simp)
            · exact absurd h1 (by simp)
            · exact absurd h1 (by simp)
          · intro k st code hj hst
            simp only [List.mem_cons, List.not_mem_nil, or_false] at hj ⊢
            rcases hj with h1 | h1 | h1 | h1 | h1
            · simp only [Event.log.injEq] at h1
              exact absurd h1.2.1 hst
            · exact absurd h1 (by simp)
            · simp only [Event.log.injEq] at h1
              obtain ⟨rfl, rfl, rfl⟩ := h1
              exact Or.inr (Or.inr (Or.inr (Or.inl (by simp))))
            · exact absurd h1 (by simp)
            · exact absurd h1 (by simp)

theorem no_escaped_loopClean (cfg : QueueConfig)
    (driver : Nat → Option Nat → AttemptOutcome) (arg : Option Nat) :
    ∀ fuel a, (processLoopClean cfg driver arg a fuel).countP isEscaped = 0 := by
  intro fuel
  induction fuel with
  | zero => intro a; simp [processLoopClean]
  | succ fuel ih =>
    intro a
    unfold processLoopClean
    cases hd : driver (a + 1) arg with
    | exception msg => simp [List.countP_cons, isEscaped]
    | result r =>
      by_cases hs : r.success = true
      · simp [hs, List.countP_cons, isEscaped]
      · by_cases hg : retryGuard cfg r (a + 1) = true
        · simp [hs, hg, List.countP_cons, isEscaped, ih (a + 1)]
        · simp [hs, hg, List.countP_cons, isEscaped]

theorem pqueue_inflight_le (conc : Nat) :
    ∀ s, PQueueReachable conc s → s.inFlight ≤ conc := by
  intro s h
  induction h with
  | init => exact Nat.zero_le _
  | step hr hstep ih =>
    cases hstep with
    | add => exact ih
    | start hp hc hq => simpa using hc
    | finish hf => simp; omega
    | pause => exact ih
    | resume => exact ih
    | clear => exact ih

/-! Theorems settling the claims. -/

/-- C1 counterexample: with MAX_RETRIES configured to 0, the while loop body
of processMessage never runs, so a submitted message produces no terminal
audit record and no terminal callback at all, refuting the unconditional
claim of exactly one of each. -/
theorem terminal_record_missing_when_maxRetries_zero :
    (processMessage ⟨8000, 20000, 0⟩ envOkSinks payloadPlain driverAllTimeout
      false).countP isTerminalLog = 0 ∧
    (processMessage ⟨8000, 20000, 0⟩ envOkSinks payloadPlain driverAllTimeout
      false).countP isTerminalCb = 0 := by
  decide

/-- C1 (amended): provided the configured maxRetries is at least 1 (the
default is 3), every processMessage run writes exactly one terminal (SENT or
FAILED) audit record via logAttempt, passes exactly one terminal callback to
the notifier, and no RETRYING record or callback follows a terminal event,
regardless of how the attempts end. -/
theorem terminal_record_and_callback_unique (cfg : QueueConfig) (env : SinkEnv)
    (p : WebhookPayload) (driver : Nat → Option Nat → AttemptOutcome)
    (saveFails : Bool) (h : 1 ≤ cfg.maxRetries) :
    (processMessage cfg env p driver saveFails).countP isTerminalLog = 1 ∧
    (processMessage cfg env p driver saveFails).countP isTerminalCb = 1 ∧
    noRetryAfterTerminal false (processMessage cfg env p driver saveFails) = true := by
  unfold processMessage
  rw [processLoop_eq_clean]
  have hc := terminal_counts_loopClean cfg driver (mediaArgOf p saveFails)
    cfg.maxRetries 0 (by omega) h
  have hn := noRetryAfter_loopClean cfg driver (mediaArgOf p saveFails)
    cfg.maxRetries 0
  refine ⟨?_, ?_, ?_⟩
  · rw [List.countP_append, hc.1]
    split <;> simp [isTerminalLog]
  · rw [List.countP_append, hc.2]
    split <;> simp [isTerminalCb]
  · refine noRetryAfterTerminal_append _ _ _ hn ?_
    intro s
    split
    · cases s <;> simp [noRetryAfterTerminal, isRetryingEvent]
    · cases s <;> simp [noRetryAfterTerminal]

/-- C1 witness: the amended theorem applied to the default configuration, a
plain payload and a driver that times out once and then succeeds. -/
theorem terminal_record_and_callback_unique_witness :
    (processMessage cfgDefault envOkSinks payloadPlain driverTimeoutThenSent
      false).countP isTerminalLog = 1 ∧
    (processMessage cfgDefault envOkSinks payloadPlain driverTimeoutThenSent
      false).countP isTerminalCb = 1 ∧
    noRetryAfterTerminal false (processMessage cfgDefault envOkSinks
      payloadPlain driverTimeoutThenSent false) = true :=
  terminal_record_and_callback_unique cfgDefault envOkSinks payloadPlain
    driverTimeoutThenSent false (by decide)

/-- C2: the number of sendMessage invocations of a processMessage run never
exceeds the configured maxRetries (so the attempt loop terminates after at
most maxRetries iterations), and attempt k+1 is only ever performed when
attempt k (for k at least 1) returned an unsuccessful MessageResult whose
errorCode passed the retryable classification, with k strictly below
maxRetries. -/
theorem attempts_bounded_and_retry_guarded (cfg : QueueConfig) (env : SinkEnv)
    (p : WebhookPayload) (driver : Nat → Option Nat → AttemptOutcome)
    (saveFails : Bool) :
    (processMessage cfg env p driver saveFails).countP isSend ≤ cfg.maxRetries ∧
    (∀ k arg2, 1 ≤ k →
      Event.send (k + 1) arg2 ∈ processMessage cfg env p driver saveFails →
      k < cfg.maxRetries ∧ ∃ r, driver k (mediaArgOf p saveFails) = .result r ∧
        r.success = false ∧ retryGuard cfg r k = true) := by
  unfold processMessage
  rw [processLoop_eq_clean]
  constructor
  · rw [List.countP_append]
    have h1 := countP_send_loopClean cfg driver (mediaArgOf p saveFails)
      cfg.maxRetries 0
    have h2 : (List.countP isSend
        (if 0 < stagedCount p saveFails
          then [Event.cleanup (stagedCount p saveFails)] else [])) = 0 := by
      split <;> simp [isSend]
    omega
  · intro k arg2 hk hmem
    rw [List.mem_append] at hmem
    rcases hmem with hmem | hmem
    · obtain ⟨_, _, h3, h4⟩ := send_mem_loopClean cfg driver
        (mediaArgOf p saveFails) cfg.maxRetries 0 (k + 1) arg2 hmem
      obtain ⟨r, hr1, hr2, hr3⟩ := h4 (by omega)
      exact ⟨retryGuard_lt hr3, r, hr1, hr2, hr3⟩
    · split at hmem <;> simp at hmem

/-- C2 witness: the bound and the retry guard evaluated on the default
configuration with a driver that times out on attempt 1, showing that the
second attempt was justified by a retryable first failure. -/
theorem attempts_bounded_and_retry_guarded_witness :
    (processMessage cfgDefault envOkSinks payloadPlain driverTimeoutThenSent
      false).countP isSend ≤ cfgDefault.maxRetries ∧
    (1 < cfgDefault.maxRetries ∧ ∃ r,
      driverTimeoutThenSent 1 (mediaArgOf payloadPlain false) = .result r ∧
      r.success = false ∧ retryGuard cfgDefault r 1 = true) :=
  ⟨(attempts_bounded_and_retry_guarded cfgDefault envOkSinks payloadPlain
      driverTimeoutThenSent false).1,
   (attempts_bounded_and_retry_guarded cfgDefault envOkSinks payloadPlain
      driverTimeoutThenSent false).2 1 none (by decide) (by decide)⟩

/-- C3: every backoff sleep of a processMessage run belongs to a retryable
failure of some attempt k with 1 ≤ k < maxRetries, lasts exactly
min(1000 * 2 ^ k, 30000) milliseconds, and sits between attempt k and the
start of attempt k+1 in the trace; in particular the delay is 2000 ms after
attempt 1 and 4000 ms after attempt 2. -/
theorem backoff_formula (cfg : QueueConfig) (env : SinkEnv) (p : WebhookPayload)
    (driver : Nat → Option Nat → AttemptOutcome) (saveFails : Bool) (ms : Nat)
    (h : Event.sleepBackoff ms ∈ processMessage cfg env p driver saveFails) :
    ∃ k r, 1 ≤ k ∧ k < cfg.maxRetries ∧
      driver k (mediaArgOf p saveFails) = .result r ∧ r.success = false ∧
      retryGuard cfg r k = true ∧ ms = min (1000 * 2 ^ k) 30000 ∧
      ∃ l rest, processMessage cfg env p driver saveFails =
        l ++ Event.sleepBackoff ms :: Event.log (k + 1) .sending none ::
          Event.send (k + 1) (mediaArgOf p saveFails) :: rest := by
  unfold processMessage at h ⊢
  rw [processLoop_eq_clean] at h ⊢
  rw [List.mem_append] at h
  rcases h with h | h
  · obtain ⟨k, r, hk1, hk2, hk3, hk4, hk5, hk6, l, rest, hdec⟩ :=
      backoff_mem_loopClean cfg driver (mediaArgOf p saveFails)
        cfg.maxRetries 0 ms (by omega) h
    subst hk6
    refine ⟨k, r, hk1, hk2, hk3, hk4, hk5, rfl, l,
      rest ++ (if 0 < stagedCount p saveFails
        then [Event.cleanup (stagedCount p saveFails)] else []), ?_⟩
    rw [hdec]
    simp [List.append_assoc]
  · split at h <;> simp at h

/-- C3 witness: the backoff characterisation applied to the 2000 ms sleep
that the default configuration produces after a first retryable timeout. -/
theorem backoff_formula_witness :
    ∃ k r, 1 ≤ k ∧ k < cfgDefault.maxRetries ∧
      driverTimeoutThenSent k (mediaArgOf payloadPlain false) = .result r ∧
      r.success = false ∧ retryGuard cfgDefault r k = true ∧
      2000 = min (1000 * 2 ^ k) 30000 ∧
      ∃ l rest, processMessage cfgDefault envOkSinks payloadPlain
          driverTimeoutThenSent false =
        l ++ Event.sleepBackoff 2000 :: Event.log (k + 1) .sending none ::
          Event.send (k + 1) (mediaArgOf payloadPlain false) :: rest :=
  backoff_formula cfgDefault envOkSinks payloadPlain driverTimeoutThenSent
    false 2000 (by decide)

/-- C4: when the sendMessage call of some attempt k throws (rather than
returning a classified MessageResult), processing stops at attempt k: no
later attempt is made regardless of remaining retries, exactly one FAILED
audit record is written, carrying error code UNEXPECTED_ERROR, and exactly
one failed callback is passed to the notifier. -/
theorem unexpected_error_terminal (cfg : QueueConfig) (env : SinkEnv)
    (p : WebhookPayload) (driver : Nat → Option Nat → AttemptOutcome)
    (saveFails : Bool) (k : Nat) (arg2 : Option Nat) (msg : String)
    (hmem : Event.send k arg2 ∈ processMessage cfg env p driver saveFails)
    (hexc : driver k (mediaArgOf p saveFails) = .exception msg) :
    (∀ j argj, Event.send j argj ∈ processMessage cfg env p driver saveFails →
      j ≤ k) ∧
    Event.log k .failed (some "UNEXPECTED_ERROR") ∈
      processMessage cfg env p driver saveFails ∧
    Event.callback k .failed false (some "UNEXPECTED_ERROR") ∈
      processMessage cfg env p driver saveFails ∧
    (processMessage cfg env p driver saveFails).countP isTerminalLog = 1 ∧
    (processMessage cfg env p driver saveFails).countP isTerminalCb = 1 := by
  unfold processMessage at hmem ⊢
  rw [processLoop_eq_clean] at hmem ⊢
  rw [List.mem_append] at hmem
  rcases hmem with hmem | hmem
  · obtain ⟨hbound, hlog, hcb, hc1, hc2⟩ := exception_loopClean cfg driver
      (mediaArgOf p saveFails) cfg.maxRetries 0 k arg2 msg hmem hexc
    refine ⟨?_, List.mem_append_left _ hlog, List.mem_append_left _ hcb, ?_, ?_⟩
    · intro j argj hj
      rw [List.mem_append] at hj
      rcases hj with hj | hj
      · exact hbound j argj hj
      · split at hj <;> simp at hj
    · rw [List.countP_append, hc1]
      split <;> simp [isTerminalLog]
    · rw [List.countP_append, hc2]
      split <;> simp [isTerminalCb]
  · split at hmem <;> simp at hmem

/-- C4 witness: the unexpected-exception contract applied to a driver that
throws on attempt 1 of the default configuration. -/
theorem unexpected_error_terminal_witness :
    (∀ j argj, Event.send j argj ∈ processMessage cfgDefault envOkSinks
      payloadPlain driverThrows false → j ≤ 1) ∧
    Event.log 1 .failed (some "UNEXPECTED_ERROR") ∈
      processMessage cfgDefault envOkSinks payloadPlain driverThrows false ∧
    Event.callback 1 .failed false (some "UNEXPECTED_ERROR") ∈
      processMessage cfgDefault envOkSinks payloadPlain driverThrows false ∧
    (processMessage cfgDefault envOkSinks payloadPlain driverThrows
      false).countP isTerminalLog = 1 ∧
    (processMessage cfgDefault envOkSinks payloadPlain driverThrows
      false).countP isTerminalCb = 1 :=
  unexpected_error_terminal cfgDefault envOkSinks payloadPlain driverThrows
    false 1 none "page crashed" (by decide) (by decide)

/-- C5: the audit sink, the notifier and the screenshot upload catch every
internal failure: logAttempt and sendCallback return normally on every insert
or fetch outcome, uploadScreenshot never propagates an error, the event trace
of processMessage is identical under every sink environment (so a sink
failure cannot change the retry state, attempt count or final outcome), and
no exception ever escapes processMessage through a sink call. -/
theorem sink_failures_never_propagate :
    (∀ io, QueueService.logAttempt io = .ok ()) ∧
    (∀ b f, N8nWebhookService.sendCallback b f = .ok ()) ∧
    (∀ fe rr ue url, ∃ v, SupabaseService.uploadScreenshot fe rr ue url = .ok v) ∧
    (∀ cfg p driver saveFails (env env' : SinkEnv),
      processMessage cfg env p driver saveFails =
        processMessage cfg env' p driver saveFails) ∧
    (∀ cfg env p driver saveFails,
      (processMessage cfg env p driver saveFails).countP isEscaped = 0) := by
  refine ⟨logAttempt_ok, sendCallback_ok, uploadScreenshot_ok, ?_, ?_⟩
  · intro cfg p driver saveFails env env'
    unfold processMessage
    rw [processLoop_eq_clean, processLoop_eq_clean]
  · intro cfg env p driver saveFails
    unfold processMessage
    rw [processLoop_eq_clean, List.countP_append,
      no_escaped_loopClean cfg driver (mediaArgOf p saveFails) cfg.maxRetries 0]
    split <;> simp [isEscaped]

/-- C6 counterexample: a submission with 12 attachments is rejected, but with
error_code INVALID_MEDIA, the single code the ingress handler uses for every
media validation failure; no TOO_MANY_ATTACHMENTS code exists. -/
theorem twelve_attachments_code_not_too_many :
    ingressErrorCode (handleWebhookSend payloadTwelve) = some "INVALID_MEDIA" ∧
    ingressErrorCode (handleWebhookSend payloadTwelve) ≠ some "TOO_MANY_ATTACHMENTS" := by
  decide

/-- C6 (amended): media validation at the ingress rejects each of the four
violation classes before enqueue, all with HTTP 400 and the single error code
INVALID_MEDIA; the classes are distinguished only by the error message text
(attachment count, per-file unsupported MIME type, per-file malformed base64,
aggregate size); in particular a 12-attachment submission is rejected before
enqueue with error_code INVALID_MEDIA and the attachment-count message, and
no message of a rejected submission is ever enqueued. -/
theorem media_validation_rejected_with_invalid_media :
    (∀ p : WebhookPayload, 0 < p.media.length →
      (validateMediaFiles p.media).valid = false →
      p.phone ≠ "" → p.text ≠ "" → phoneRegexOk p.phone = true →
      handleWebhookSend p =
        .rejected 400 "INVALID_MEDIA" ((validateMediaFiles p.media).error) ∧
      enqueues (handleWebhookSend p) = false) ∧
    (∀ l : List MediaFile, QUO_MAX_ATTACHMENTS < l.length →
      validateMediaFiles l =
        ⟨false, some (tooManyText l.length), none, none, some l.length⟩) ∧
    (∀ m : MediaFile, m.filename ≠ "" → m.mimeType ≠ "" → m.data ≠ "" →
      SUPPORTED_MIME_TYPES.contains m.mimeType = false →
      validateMediaFiles [m] =
        ⟨false, some ("File " ++ toString (1 : Nat) ++ " (" ++ m.filename ++
          "): " ++ ("Unsupported MIME type: " ++ m.mimeType)), none, none, none⟩) ∧
    (∀ m : MediaFile, m.filename ≠ "" → m.mimeType ≠ "" → m.data ≠ "" →
      SUPPORTED_MIME_TYPES.contains m.mimeType = true →
      validBase64 m.data = false →
      validateMediaFiles [m] =
        ⟨false, some ("File " ++ toString (1 : Nat) ++ " (" ++ m.filename ++
          "): " ++ "Invalid base64 encoding"), none, none, none⟩) ∧
    (∀ l : List MediaFile, 0 < l.length → ¬ QUO_MAX_ATTACHMENTS < l.length →
      firstFormatError l 0 = none → QUO_MAX_TOTAL_SIZE < totalSizeOf l →
      validateMediaFiles l =
        ⟨false, some (sizeErrorText (totalSizeOf l)), none,
          some (totalSizeOf l), some l.length⟩) ∧
    (handleWebhookSend payloadTwelve =
      .rejected 400 "INVALID_MEDIA" (some (tooManyText 12)) ∧
     tooManyText 12 = "Too many attachments (12). Maximum is 10 files per message." ∧
     enqueues (handleWebhookSend payloadTwelve) = false) := by
  refine ⟨?_, ?_, ?_, ?_, ?_, by decide⟩
  · intro p hm hv hp ht hr
    have h1 : (p.phone == "" || p.text == "") = false := by simp [hp, ht]
    have h2 : (!(phoneRegexOk p.phone)) = false := by simp [hr]
    constructor <;> simp [handleWebhookSend, h1, h2, hm, hv, enqueues]
  · intro l hlen
    have h0 : (l.length == 0) = false := by
      simp only [beq_eq_false_iff_ne, ne_eq]
      omega
    simp [validateMediaFiles, h0, hlen]
  · intro m hf hmt hd hsup
    have h1 : (m.filename == "" || m.mimeType == "" || m.data == "") = false := by
      simp [hf, hmt, hd]
    have hsup2 : m.mimeType ∉ SUPPORTED_MIME_TYPES := by simpa using hsup
    simp [validateMediaFiles, firstFormatError, validateMediaFile, h1, hsup2,
      QUO_MAX_ATTACHMENTS]
  · intro m hf hmt hd hsup hb
    have h1 : (m.filename == "" || m.mimeType == "" || m.data == "") = false := by
      simp [hf, hmt, hd]
    have hsup2 : m.mimeType ∈ SUPPORTED_MIME_TYPES := by simpa using hsup
    simp [validateMediaFiles, firstFormatError, validateMediaFile, h1, hsup2, hb,
      QUO_MAX_ATTACHMENTS]
  · intro l hlen hcount hfmt hsize
    have h0 : (l.length == 0) = false := by
      simp only [beq_eq_false_iff_ne, ne_eq]
      omega
    simp [validateMediaFiles, h0, hcount, hfmt, hsize]

/-- C6 witness: the amended theorem instantiated with an unsupported MIME
attachment, a malformed base64 attachment, and the twelve-attachment list. -/
theorem media_validation_rejected_with_invalid_media_witness :
    validateMediaFiles (List.replicate 12 jpegFile) =
      ⟨false, some (tooManyText 12), none, none, some 12⟩ ∧
    validateMediaFiles [textFile] =
      ⟨false, some ("File " ++ toString (1 : Nat) ++ " (" ++ textFile.filename ++
        "): " ++ ("Unsupported MIME type: " ++ textFile.mimeType)), none, none, none⟩ ∧
    validateMediaFiles [badBase64File] =
      ⟨false, some ("File " ++ toString (1 : Nat) ++ " (" ++ badBase64File.filename ++
        "): " ++ "Invalid base64 encoding"), none, none, none⟩ :=
  ⟨by
    have h := (media_validation_rejected_with_invalid_media).2.1
      (List.replicate 12 jpegFile) (by decide)
    simpa using h,
   (media_validation_rejected_with_invalid_media).2.2.1 textFile (by decide)
     (by decide) (by decide) (by decide),
   (media_validation_rejected_with_invalid_media).2.2.2.1 badBase64File
     (by decide) (by decide) (by decide) (by decide) (by decide)⟩

/-- C7 counterexample: a run of processMessage performs attempt 1 (the send
event is in the trace) yet the trace contains no notifier callback with
status sending, refuting the claim that a sending callback is emitted at the
start of every attempt. -/
theorem no_sending_callback_emitted :
    Event.send 1 none ∈
      processMessage cfgDefault envOkSinks payloadPlain driverAllSent false ∧
    (processMessage cfgDefault envOkSinks payloadPlain driverAllSent
      false).countP isSendingCb = 0 := by
  decide

/-- C7 (amended): the audit sink is invoked at every state transition — a
SENDING row opens every attempt, and every SENT, RETRYING or FAILED row of
the trace is accompanied by a notifier callback with the same attempt number,
status and error code — but the notifier is invoked only at SENT, RETRYING
and FAILED transitions: no callback with status sending is ever passed to
it. -/
theorem audit_every_transition_callback_on_outcome (cfg : QueueConfig)
    (env : SinkEnv) (p : WebhookPayload)
    (driver : Nat → Option Nat → AttemptOutcome) (saveFails : Bool) :
    (∀ k arg2, Event.send k arg2 ∈ processMessage cfg env p driver saveFails →
      Event.log k .sending none ∈ processMessage cfg env p driver saveFails) ∧
    (∀ k st code, Event.log k st code ∈ processMessage cfg env p driver saveFails →
      st ≠ .sending →
      Event.callback k st (decide (st = .sent)) code ∈
        processMessage cfg env p driver saveFails) ∧
    (processMessage cfg env p driver saveFails).countP isSendingCb = 0 := by
  unfold processMessage
  rw [processLoop_eq_clean]
  have ht := transitions_loopClean cfg driver (mediaArgOf p saveFails)
    cfg.maxRetries 0
  refine ⟨?_, ?_, ?_⟩
  · intro k arg2 hmem
    rw [List.mem_append] at hmem
    rcases hmem with hmem | hmem
    · exact List.mem_append_left _ (ht.1 k arg2 hmem)
    · split at hmem <;> simp at hmem
  · intro k st code hmem hst
    rw [List.mem_append] at hmem
    rcases hmem with hmem | hmem
    · exact List.mem_append_left _ (ht.2 k st code hmem hst)
    · split at hmem <;> simp at hmem
  · rw [List.countP_append,
      no_sendingCb_loopClean cfg driver (mediaArgOf p saveFails) cfg.maxRetries 0]
    split <;> simp [isSendingCb]

/-- C7 witness: the amended theorem applied to a run with one retryable
failure and one success, instantiated at the RETRYING row of attempt 1. -/
theorem audit_every_transition_callback_on_outcome_witness :
    Event.log 1 .sending none ∈
      processMessage cfgDefault envOkSinks payloadPlain driverTimeoutThenSent false ∧
    Event.callback 1 .retrying (decide (MessageStatus.retrying = .sent))
        (some "TimeoutError") ∈
      processMessage cfgDefault envOkSinks payloadPlain driverTimeoutThenSent false ∧
    (processMessage cfgDefault envOkSinks payloadPlain driverTimeoutThenSent
      false).countP isSendingCb = 0 :=
  ⟨(audit_every_transition_callback_on_outcome cfgDefault envOkSinks
      payloadPlain driverTimeoutThenSent false).1 1 none (by decide),
   (audit_every_transition_callback_on_outcome cfgDefault envOkSinks
      payloadPlain driverTimeoutThenSent false).2.1 1 .retrying
      (some "TimeoutError") (by decide) (by decide),
   (audit_every_transition_callback_on_outcome cfgDefault envOkSinks
      payloadPlain driverTimeoutThenSent false).2.2⟩

/-- C8: with the concurrency value 1 that the QueueService constructor passes
to PQueue, every reachable state of the dispatch queue has an in-flight count
of 0 or 1: a second message never starts processing while one is running, and
neither pausing, clearing nor enqueuing changes that. -/
theorem queue_inflight_zero_or_one (s : PQueueState)
    (h : PQueueReachable queueConcurrency s) :
    s.inFlight = 0 ∨ s.inFlight = 1 := by
  have hle := pqueue_inflight_le queueConcurrency s h
  simp only [queueConcurrency] at hle
  omega

/-- C8 witness: the invariant evaluated at the state reached by submitting
one message and starting it. -/
theorem queue_inflight_zero_or_one_witness :
    (PQueueState.mk 1 0 false).inFlight = 0 ∨
    (PQueueState.mk 1 0 false).inFlight = 1 :=
  queue_inflight_zero_or_one ⟨1, 0, false⟩
    (PQueueReachable.step
      (PQueueReachable.step PQueueReachable.init (PQueueStep.add _))
      (PQueueStep.start _ rfl (by decide) (by decide)))

/-- C9: if the verification scan itself fails — the screenshot step throws,
or no selector yields a readable error element because every query or text
read throws or finds nothing — verifyMessageSent returns true, and
sendMessage therefore classifies the attempt as a success with status SENT
rather than as a failure. -/
theorem verification_exception_counts_as_sent :
    (∀ e scan, verifyMessageSent (.error e) scan = true) ∧
    (∀ scan, noReadableErrorElement scan = true →
      verifyMessageSent (.ok ()) scan = true) ∧
    (∀ e scan d, sendMessage (.reachVerify (.error e) scan) d =
      ⟨true, .sent, none, none, some d⟩) ∧
    (∀ scan d, noReadableErrorElement scan = true →
      sendMessage (.reachVerify (.ok ()) scan) d =
        ⟨true, .sent, none, none, some d⟩) := by
  have hscan : ∀ scan, noReadableErrorElement scan = true →
      scanSelectors scan = true := by
    intro scan
    induction scan with
    | nil => intro _; rfl
    | cons o rest ih =>
      intro h
      simp only [noReadableErrorElement, List.all_cons, Bool.and_eq_true] at h
      cases o with
      | queryThrows => exact ih (by simpa [noReadableErrorElement] using h.2)
      | absent => exact ih (by simpa [noReadableErrorElement] using h.2)
      | found tr =>
        cases tr with
        | error e => exact ih (by simpa [noReadableErrorElement] using h.2)
        | ok t => simp at h
  refine ⟨fun e scan => rfl, fun scan h => hscan scan h, fun e scan d => rfl,
    fun scan d h => ?_⟩
  simp [sendMessage, verifyMessageSent, hscan scan h]

/-- C9 witness: a scan where the first query throws, the second finds an
element whose text read throws, and the third finds nothing, still yields a
success result with status SENT. -/
theorem verification_exception_counts_as_sent_witness :
    sendMessage (.reachVerify (.ok ())
      [.queryThrows, .found (.error "stale handle"), .absent]) 5000 =
      ⟨true, .sent, none, none, some 5000⟩ :=
  (verification_exception_counts_as_sent).2.2.2
    [.queryThrows, .found (.error "stale handle"), .absent] 5000 (by decide)

/-- C10: when saveMediaFiles throws, processMessage resets the staged list to
empty and proceeds unchanged: its whole event trace equals the trace of the
same payload with no media at all (so a success is reported as a plain SENT
with no indication that media was dropped), and every sendMessage invocation
of such a run receives no media argument. -/
theorem media_staging_failure_sends_without_media (cfg : QueueConfig)
    (env : SinkEnv) (p : WebhookPayload)
    (driver : Nat → Option Nat → AttemptOutcome) :
    processMessage cfg env p driver true =
      processMessage cfg env ⟨p.phone, p.text, p.external_id, []⟩ driver false ∧
    (processMessage cfg env p driver true).all
      (fun e => match e with
        | .send _ arg => arg == none
        | _ => true) = true := by
  constructor
  · unfold processMessage
    simp [stagedCount, mediaArgOf]
  · unfold processMessage
    rw [processLoop_eq_clean]
    have hstage : stagedCount p true = 0 := by simp [stagedCount]
    rw [List.all_append]
    simp only [hstage, Bool.and_eq_true]
    constructor
    · rw [List.all_eq_true]
      intro e he
      cases e with
      | send k arg =>
        obtain ⟨harg, _, _, _⟩ := send_mem_loopClean cfg driver
          (mediaArgOf p true) cfg.maxRetries 0 k arg he
        subst harg
        simp [mediaArgOf, hstage]
      | log a st c => rfl
      | callback a st b c => rfl
      | sleepBackoff ms => rfl
      | sleepInter => rfl
      | cleanup n => rfl
      | escaped m => rfl
    · simp

end SmsSpec
